import Mathlib

/-!
Verification of the `BaseController` of the `zcontract_management` UI5
application (`src/controller/BaseController.ts`, plus `src/manifest.json`).

The controller is a thin orchestration layer over framework APIs.  We embed
it shallowly: JavaScript strings become `List Char`, the module-global
fragment registry `_fragments` becomes an association list, and every call
into the UI5 framework (`Controller.create`, `Fragment.load`,
`Router.navTo`, `window.history.back`, `ShellUIService.setHierarchy`, …)
becomes an explicit entry of an effect trace.  The asynchronous promise
chains of `openDialog` are modelled as the sequential composition of their
resolution steps, with the outcome of `Controller.create` (resolve or
reject) an explicit boolean parameter.
-/

namespace ZContract

/-- JavaScript strings, embedded as lists of characters. -/
abbrev Str := List Char

/-- Coercion from Lean string literals into the embedding. -/
def str (s : String) : Str := s.data

/-- `headMatches pat l` is true when `pat` occurs at the very start of `l`
(the primitive underlying `String.prototype.indexOf` matching). -/
def headMatches : Str → Str → Bool
  | [], _ => true
  | _ :: _, [] => false
  | p :: ps, c :: cs => decide (p = c) && headMatches ps cs

/-- Index of the first occurrence of `pat` in `l`, if any. -/
def idxOf? (pat : Str) : Str → Option Nat
  | [] => if headMatches pat [] then some 0 else none
  | c :: cs =>
    if headMatches pat (c :: cs) then some 0
    else (idxOf? pat cs).map (· + 1)

/-- JavaScript `l.indexOf(pat)`: first occurrence index, `-1` if absent. -/
def jsIndexOf (l pat : Str) : Int :=
  match idxOf? pat l with
  | some n => (n : Int)
  | none => -1

/-- Index of the last occurrence of `pat` in `l`, if any. -/
def lastIdx? (pat : Str) : Str → Option Nat
  | [] => if headMatches pat [] then some 0 else none
  | c :: cs =>
    match lastIdx? pat cs with
    | some n => some (n + 1)
    | none => if headMatches pat (c :: cs) then some 0 else none

/-- JavaScript `l.lastIndexOf(pat)`: last occurrence index, `-1` if absent. -/
def jsLastIndexOf (l pat : Str) : Int :=
  match lastIdx? pat l with
  | some n => (n : Int)
  | none => -1

/-- JavaScript `l.substr(i)` for the non-negative starts the code uses. -/
def jsSubstr (l : Str) (i : Int) : Str := l.drop i.toNat

/-- JavaScript `l.split(sep)` for a one-character separator
(`"".split(".") = [""]`, so the result is never the empty array). -/
def splitOnChar (sep : Char) : Str → List Str
  | [] => [[]]
  | c :: cs =>
    match splitOnChar sep cs with
    | [] => [[]]
    | h :: t => if c = sep then [] :: h :: t else (c :: h) :: t

/-- JavaScript `arr.join(".")`. -/
def joinDots : List Str → Str
  | [] => []
  | [x] => x
  | x :: y :: ys => x ++ '.' :: joinDots (y :: ys)

/-- JavaScript `l.toLowerCase()` (ASCII, which covers every string the
controller manipulates). -/
def lowerStr (l : Str) : Str := l.map Char.toLower

/-- JavaScript `l.replace(pat, rep)` with a string pattern: replaces the
first occurrence only. -/
def replaceFirst (pat rep : Str) : Str → Str
  | [] => if headMatches pat [] then rep else []
  | c :: cs =>
    if headMatches pat (c :: cs) then rep ++ (c :: cs).drop pat.length
    else c :: replaceFirst pat rep cs

/-!  Name resolution performed by `openDialog` (BaseController.ts 147–162). -/

/-- Lines 147–162 of `openDialog`: from the requested fragment name and the
current view's name, compute the pair (final `sName`, final `sViewPath`
with its trailing dot).  When the requested name contains a `'.'` at a
position greater than 0 the name is split there; otherwise the current
view's name supplies the path.  The resulting directory path gets
`".fragments."` appended unless it already mentions `"fragments"`
(case-insensitively, at an index greater than 0). -/
def dialogNames (sName viewName : Str) : Str × Str :=
  let p :=
    if jsIndexOf sName (str ".") > 0 then
      (jsSubstr sName (jsLastIndexOf sName (str ".") + 1), splitOnChar '.' sName)
    else
      (sName, splitOnChar '.' viewName)
  let sViewPath := joinDots p.2.dropLast
  let sViewPath :=
    if jsIndexOf (lowerStr sViewPath) (str "fragments") > 0 then sViewPath ++ str "."
    else sViewPath ++ str ".fragments."
  (p.1, sViewPath)

/-- The full module name handed to `Fragment.load` (`sViewPath + sName`). -/
def fragmentFullName (sName viewName : Str) : Str :=
  (dialogNames sName viewName).2 ++ (dialogNames sName viewName).1

/-- The registry key `this.getView().getId() + "-" + sName` computed by
`openDialog` (line 164), after the name reduction of lines 147–153. -/
def dialogId (viewId sName viewName : Str) : Str :=
  viewId ++ str "-" ++ (dialogNames sName viewName).1

/-- The controller module name handed to `Controller.create`
(line 167: `sViewPath.replace("view", "controller")`, then `+ sName`). -/
def ctrlModulePath (sName viewName : Str) : Str :=
  replaceFirst (str "view") (str "controller") (dialogNames sName viewName).2
    ++ (dialogNames sName viewName).1

/-!  Claim-side name vocabulary (used to state the spec claims). -/

/-- The substring of `s` after its last `'.'`. -/
def lastDotSegment (s : Str) : Str :=
  jsSubstr s (jsLastIndexOf s (str ".") + 1)

/-- `s` with its last dot-segment removed. -/
def removeLastSegment (s : Str) : Str :=
  joinDots ((splitOnChar '.' s).dropLast)

/-- The spec's "fragments" rule: append `".fragments"` to a path unless the
path already contains `"fragments"` case-insensitively at an index
greater than 0. -/
def fragmentsRule (p : Str) : Str :=
  if jsIndexOf (lowerStr p) (str "fragments") > 0 then p else p ++ str ".fragments"

/-- The registry key stated in claim-side vocabulary, with the amendment
the code forces: view id, a dash, and the last dot-segment of the
requested name when that name contains a `'.'` at a position greater
than 0, the requested name unchanged otherwise (the code only strips the
path in the first case, so names starting with a dot keep their dot). -/
def amendedKey (viewId sName : Str) : Str :=
  viewId ++ str "-" ++
    (if jsIndexOf sName (str ".") > 0 then lastDotSegment sName else sName)

/-!  Data model: fragment objects, controllers, registry, effect trace. -/

/-- A value stored in the `fragment` field of a registry entry.
`emptyObj` is the `{}` placeholder of line 169; `undef` is the
`undefined` returned by the asynchronous `sap.ui.require` of line 300;
`dialog n b` is a loaded dialog control with handle `n` whose `isOpen()`
currently returns `b`. -/
inductive FragObj
  | emptyObj
  | undef
  | dialog (handle : Nat) (isOpenNow : Bool)
deriving DecidableEq, Repr

/-- A value stored in the `controller` field of a registry entry.
`emptyObj` is the `{}` placeholder of line 169; `undef` models the key
being absent (line 299 overwrites the entry with an object that has no
`controller` field); `dedicated path` is a controller produced by
`Controller.create({name: path})`; `caller viewId` is the calling
`BaseController` instance itself (`this`), identified by its view id. -/
inductive CtrlObj
  | emptyObj
  | undef
  | dedicated (path : Str)
  | caller (viewId : Str)
deriving DecidableEq, Repr

/-- One entry of the module-global `_fragments` registry. -/
structure FragEntry where
  fragment : FragObj
  controller : CtrlObj
deriving DecidableEq, Repr

/-- The module-global `_fragments` object (line 31): keys in insertion
order, as `for (var f in _fragments)` enumerates them. -/
abbrev Registry := List (Str × FragEntry)

/-- Property read `_fragments[k]`. -/
def regGet : Registry → Str → Option FragEntry
  | [], _ => none
  | (k, v) :: r, k' => if k = k' then some v else regGet r k'

/-- Property write `_fragments[k] = v`: replaces in place when the key
exists, appends otherwise. -/
def setEntry (reg : Registry) (k : Str) (v : FragEntry) : Registry :=
  match regGet reg k with
  | some _ => reg.map (fun p => if p.1 = k then (k, v) else p)
  | none => reg ++ [(k, v)]

/-- Field write `_fragments[k].controller = c` (a no-op on a key the
modelled flows never hit with a missing entry). -/
def setCtrl (reg : Registry) (k : Str) (c : CtrlObj) : Registry :=
  match regGet reg k with
  | some e => setEntry reg k ⟨e.fragment, c⟩
  | none => reg

/-- Field write `_fragments[k].fragment = f`. -/
def setFrag (reg : Registry) (k : Str) (f : FragObj) : Registry :=
  match regGet reg k with
  | some e => setEntry reg k ⟨f, e.controller⟩
  | none => reg

/-- JavaScript values passed through to `Router.navTo`. -/
inductive JsVal
  | undef
  | boolV (b : Bool)
  | strV (s : Str)
  | emptyObjV
  | objV (handle : Nat)
deriving DecidableEq, Repr

/-- The router object `UIComponent.getRouterFor(this)` of the calling
controller. -/
inductive RouterObj
  | forController (selfId : Str)
deriving DecidableEq, Repr

/-- An entry of the FLP history array handed to
`ShellUIService.setHierarchy` — an `intent` plus the rest of its payload,
kept abstract as a handle. -/
structure HEntry where
  intent : Str
  payload : Nat
deriving DecidableEq, Repr

/-- One observable call into the host framework (or the browser).
`openCall f` records the evaluation of `f.open()`: on a value that is not
a loaded dialog this evaluation throws a `TypeError` in JavaScript, but it
is still the recorded action the code takes on that stored object. -/
inductive Effect
  | controllerCreate (name : Str)
  | fragmentLoad (id name : Str) (ctrl : CtrlObj)
  | addDependentCall (f : FragObj)
  | setModelCall (id : Str) (model : Nat)
  | onBeforeShowCall (target ctrlArg : CtrlObj) (f : FragObj)
      (callback dat : Option Nat)
  | openCall (f : FragObj)
  | closeCall (key : Str)
  | historyBack
  | routerNavTo (router : RouterObj) (target : Str) (params info repl : JsVal)
  | setHierarchy (entries : List HEntry)
deriving DecidableEq, Repr

/-!  `openDialog` (lines 140–197) and `createDialogFragment` (290–336),
split into its synchronous part and the resolution steps of its promise
chains. -/

/-- The `if (model && updateModelAllways) fragment.setModel(model)` step of
`createDialogFragment` (lines 317–319): a `setModel` call happens exactly
when a model was passed and the flag is truthy. -/
def modelEffs (id : Str) (model : Option Nat) (uma : Option Bool) : List Effect :=
  match model, uma with
  | some m, some true => [Effect.setModelCall id m]
  | _, _ => []

/-- The synchronous body of `openDialog` (lines 147–197): resolve the
names, compute the registry key, and either register the `{}` placeholder
and fire `Controller.create` (returning the data the promise chain needs),
or call `open()` on the already-stored fragment object. -/
def openDialogSync (reg : Registry) (viewId viewName sName : Str) :
    Registry × List Effect × Option (Str × Str × Str) :=
  let id := dialogId viewId sName viewName
  match regGet reg id with
  | some e =>
    let reg' :=
      match e.fragment with
      | FragObj.dialog n _ => setEntry reg id ⟨FragObj.dialog n true, e.controller⟩
      | _ => reg
    (reg', [Effect.openCall e.fragment], none)
  | none =>
    (setEntry reg id ⟨FragObj.emptyObj, CtrlObj.emptyObj⟩,
     [Effect.controllerCreate (ctrlModulePath sName viewName)],
     some (id, ctrlModulePath sName viewName, fragmentFullName sName viewName))

/-- Resolution of the `Controller.create` promise (lines 171–195): on
success the dedicated controller, on rejection the calling controller
itself, is written into the entry; then `createDialogFragment` runs, whose
line 299 replaces the whole entry with `{ fragment: undefined }` (the
asynchronous `sap.ui.require` returns `undefined` and the `controller` key
disappears) while `Fragment.load` is fired. -/
def controllerCreateResolve (reg : Registry) (viewId : Str) (ok : Bool)
    (id ctrlPath fragPath : Str) : Registry × CtrlObj × List Effect :=
  let oC := if ok then CtrlObj.dedicated ctrlPath else CtrlObj.caller viewId
  let reg1 := setCtrl reg id oC
  let reg2 := setEntry reg1 id ⟨FragObj.undef, CtrlObj.undef⟩
  (reg2, oC, [Effect.fragmentLoad id fragPath oC])

/-- Resolution of the `Fragment.load` promise (lines 309–332): store the
loaded dialog, `addDependent` it to the view, restore the `controller`
field, conditionally `setModel`, invoke `onBeforeShow` on the stored
controller when it is not the calling controller itself, and finally (via
`setTimeout`) call `open()` on the dialog. -/
def fragmentLoadResolve (reg : Registry) (viewId : Str) (oC : CtrlObj)
    (id : Str) (fId : Nat) (model : Option Nat) (uma : Option Bool)
    (cb dat : Option Nat) : Registry × List Effect :=
  let f0 := FragObj.dialog fId false
  let reg1 := setFrag reg id f0
  let reg2 := setCtrl reg1 id oC
  let effs :=
    [Effect.addDependentCall f0]
      ++ modelEffs id model uma
      ++ (if oC = CtrlObj.caller viewId then []
          else [Effect.onBeforeShowCall oC oC f0 cb dat])
      ++ [Effect.openCall f0]
  (setFrag reg2 id (FragObj.dialog fId true), effs)

/-- A call of `openDialog` run to completion: the synchronous part
followed, on the first call for a key, by the resolution of
`Controller.create` (outcome `ok`) and of `Fragment.load` (producing the
dialog control with handle `fId`). -/
def openDialogFull (reg : Registry) (viewId viewName sName : Str) (ok : Bool)
    (fId : Nat) (model : Option Nat) (uma : Option Bool) (cb dat : Option Nat) :
    Registry × List Effect :=
  match openDialogSync reg viewId viewName sName with
  | (reg1, effs1, none) => (reg1, effs1)
  | (reg1, effs1, some (id, cp, fp)) =>
    let r2 := controllerCreateResolve reg1 viewId ok id cp fp
    let r3 := fragmentLoadResolve r2.1 viewId r2.2.1 id fId model uma cb dat
    (r3.1, effs1 ++ r2.2.2 ++ r3.2)

/-- The controller `openDialog` ends up binding to the fragment: the
dedicated one when `Controller.create` resolves, the caller itself when it
rejects. -/
def resolvedCtrl (ok : Bool) (viewId sName viewName : Str) : CtrlObj :=
  if ok then CtrlObj.dedicated (ctrlModulePath sName viewName)
  else CtrlObj.caller viewId

/-!  `closeFragments` (lines 204–218). -/

/-- Whether line 210's guard
`_fragments[f]["fragment"] && _fragments[f].fragment["isOpen"] &&
_fragments[f].fragment.isOpen()` selects the entry for closing. -/
def closeGuard : FragObj → Bool
  | FragObj.dialog _ b => b
  | _ => false

/-- Effect of `close()` on the stored fragment object. -/
def closeFrag : FragObj → FragObj
  | FragObj.dialog n _ => FragObj.dialog n false
  | f => f

/-- What a property lookup `fragment["isOpen"]` yields. -/
inductive MethodLookup
  | missing
  | isOpenFn (ret : Bool)
deriving DecidableEq, Repr

/-- Raw JavaScript property access `fragment["isOpen"]`: `none` is the
`TypeError` thrown when the receiver is `undefined`. -/
def lookupIsOpen : FragObj → Option MethodLookup
  | FragObj.undef => none
  | FragObj.emptyObj => some MethodLookup.missing
  | FragObj.dialog _ b => some (MethodLookup.isOpenFn b)

/-- JavaScript truthiness of a stored fragment value (`undefined` is the
only falsy inhabitant here; `{}` and controls are objects, hence truthy). -/
def truthyFrag : FragObj → Bool
  | FragObj.undef => false
  | _ => true

/-- Evaluation of line 210's short-circuit guard, propagating a potential
`TypeError` as `none`. -/
def evalEntryGuard (f : FragObj) : Option Bool :=
  if truthyFrag f then
    match lookupIsOpen f with
    | none => none
    | some MethodLookup.missing => some false
    | some (MethodLookup.isOpenFn b) => some b
  else some false

/-- The loop of `closeFragments` over the module-global registry, entry by
entry in insertion order; `none` would be an uncaught `TypeError`. -/
def closeFragmentsAux : Registry → Option (Registry × List Effect)
  | [] => some ([], [])
  | (k, e) :: r =>
    match evalEntryGuard e.fragment with
    | none => none
    | some g =>
      match closeFragmentsAux r with
      | none => none
      | some (r', effs) =>
        if g then
          some ((k, ⟨closeFrag e.fragment, e.controller⟩) :: r',
                Effect.closeCall k :: effs)
        else some ((k, e) :: r', effs)

/-!  The remaining public methods. -/

/-- `getFragment` (lines 225–227): read the registry at
`this.getView().getId() + "-" + fragment`. -/
def getFragment (reg : Registry) (viewId fragment : Str) : Option FragEntry :=
  regGet reg (viewId ++ str "-" ++ fragment)

/-- The view, for `getModel`: only its `getModel` behaviour matters.
`getModelF none` is the parameterless call returning the default unnamed
model; models are abstract handles. -/
structure ViewS where
  getModelF : Option Str → Nat

/-- JavaScript truthiness of an optional string parameter. -/
def truthyOptStr : Option Str → Bool
  | none => false
  | some s => !s.isEmpty

/-- `getModel` (lines 49–53):
`modelName ? this.getView().getModel(modelName) : this.getView().getModel()`. -/
def getModel (v : ViewS) (modelName : Option Str) : Nat :=
  if truthyOptStr modelName then v.getModelF modelName else v.getModelF none

/-- `UIComponent.getRouterFor(this)`, abstract: the router is determined by
the owning component of the controller, which we identify by its view id. -/
def getRouterFor (selfId : Str) : RouterObj := RouterObj.forController selfId

/-- `getRouter` (lines 85–87). -/
def getRouter (selfId : Str) : RouterObj := getRouterFor selfId

/-- `navTo` (lines 97–109): a single pass-through call to
`this.getRouter().navTo(psTarget, pmParameters, oComponentTargetInfo,
pbReplace)`. -/
def navTo (selfId : Str) (psTarget : Str)
    (pmParameters oComponentTargetInfo pbReplace : JsVal) : List Effect :=
  [Effect.routerNavTo (getRouter selfId) psTarget pmParameters
      oComponentTargetInfo pbReplace]

/-- The route names of the `sap.ui5.routing.routes` table of
`src/manifest.json` (lines 69–75). -/
def manifestRouteNames : List Str := [str "home"]

/-- Whether the manifest's route table declares a route of this name. -/
def routeDeclared (n : Str) : Bool :=
  manifestRouteNames.any (fun r => decide (r = n))

/-- `onNavBack` (lines 117–125): `window.history.back()` when
`History.getInstance().getPreviousHash()` is not `undefined`, otherwise
`this.getRouter().navTo("appHome", {}, {}, true)`. -/
def onNavBack (selfId : Str) (previousHash : Option Str) : List Effect :=
  match previousHash with
  | some _ => [Effect.historyBack]
  | none =>
    [Effect.routerNavTo (getRouter selfId) (str "appHome")
        JsVal.emptyObjV JsVal.emptyObjV (JsVal.boolV true)]

/-- `addHistoryEntry` (lines 252–273): the closure's captured
`aHistoryEntries` array is the explicit first argument, and the updated
array is returned next to the emitted effects. -/
def addHistoryEntry (hist : List HEntry) (oEntry : HEntry) (bReset : Bool) :
    List HEntry × List Effect :=
  let hist1 := if bReset then [] else hist
  let bInHistory :=
    hist1.any (fun oHistoryEntry => decide (oHistoryEntry.intent = oEntry.intent))
  if bInHistory then (hist1, [])
  else (hist1 ++ [oEntry], [Effect.setHierarchy (hist1 ++ [oEntry])])

/-!  Boolean scanners over effect traces, used to state the claims. -/

/-- Whether the trace contains a `Controller.create` call. -/
def hasControllerCreate (effs : List Effect) : Bool :=
  effs.any fun e =>
    match e with
    | Effect.controllerCreate _ => true
    | _ => false

/-- Whether the trace contains a `Fragment.load` call. -/
def hasFragmentLoad (effs : List Effect) : Bool :=
  effs.any fun e =>
    match e with
    | Effect.fragmentLoad _ _ _ => true
    | _ => false

/-- Whether the trace contains an `onBeforeShow` invocation. -/
def hasOnBeforeShow (effs : List Effect) : Bool :=
  effs.any fun e =>
    match e with
    | Effect.onBeforeShowCall _ _ _ _ _ => true
    | _ => false

/-- Whether the trace contains a `fragment.setModel` call. -/
def hasSetModel (effs : List Effect) : Bool :=
  effs.any fun e =>
    match e with
    | Effect.setModelCall _ _ => true
    | _ => false

/-!  Registry bookkeeping lemmas. -/

lemma regGet_append_of_none {reg : Registry} {k : Str} (h : regGet reg k = none)
    (l : Registry) : regGet (reg ++ l) k = regGet l k := by
  induction reg with
  | nil => rfl
  | cons q r ih =>
    obtain ⟨k₁, v₁⟩ := q
    by_cases hk : k₁ = k
    · simp [regGet, hk] at h
    · simp only [regGet, hk, if_false, List.cons_append] at h ⊢
      exact ih h

lemma map_set_of_none {reg : Registry} {k : Str} (h : regGet reg k = none)
    (v : FragEntry) :
    reg.map (fun p => if p.1 = k then (k, v) else p) = reg := by
  induction reg with
  | nil => rfl
  | cons q r ih =>
    obtain ⟨k₁, v₁⟩ := q
    by_cases hk : k₁ = k
    · simp [regGet, hk] at h
    · simp only [regGet, hk, if_false] at h
      simp [hk, ih h]

lemma setEntry_of_none {reg : Registry} {k : Str} (h : regGet reg k = none)
    (v : FragEntry) : setEntry reg k v = reg ++ [(k, v)] := by
  simp [setEntry, h]

lemma regGet_append_self {reg : Registry} {k : Str} (h : regGet reg k = none)
    (v : FragEntry) : regGet (reg ++ [(k, v)]) k = some v := by
  rw [regGet_append_of_none h]
  simp [regGet]

lemma setEntry_append_of_none {reg : Registry} {k : Str}
    (h : regGet reg k = none) (w v : FragEntry) :
    setEntry (reg ++ [(k, w)]) k v = reg ++ [(k, v)] := by
  unfold setEntry
  rw [regGet_append_self h]
  have hmap : reg.map (fun p => if p.1 = k then (k, v) else p) = reg :=
    map_set_of_none h v
  simp [hmap]

lemma setCtrl_append_of_none {reg : Registry} {k : Str}
    (h : regGet reg k = none) (w : FragEntry) (c : CtrlObj) :
    setCtrl (reg ++ [(k, w)]) k c = reg ++ [(k, ⟨w.fragment, c⟩)] := by
  unfold setCtrl
  rw [regGet_append_self h]
  exact setEntry_append_of_none h w ⟨w.fragment, c⟩

lemma setFrag_append_of_none {reg : Registry} {k : Str}
    (h : regGet reg k = none) (w : FragEntry) (f : FragObj) :
    setFrag (reg ++ [(k, w)]) k f = reg ++ [(k, ⟨f, w.controller⟩)] := by
  unfold setFrag
  rw [regGet_append_self h]
  exact setEntry_append_of_none h w ⟨f, w.controller⟩

/-!  Characterization of a completed `openDialog` call. -/

/-- A first call for a key (no registry entry yet), run to completion:
the final registry appends one fully-populated entry, and the effect
trace is the `Controller.create` attempt, the `Fragment.load`, the
`addDependent`, the conditional `setModel`, the `onBeforeShow` exactly
when the dedicated controller was created, and the final `open()`. -/
lemma openDialogFull_of_none (reg : Registry) (viewId viewName sName : Str)
    (ok : Bool) (fId : Nat) (m : Option Nat) (u : Option Bool)
    (cb dat : Option Nat)
    (h : regGet reg (dialogId viewId sName viewName) = none) :
    openDialogFull reg viewId viewName sName ok fId m u cb dat =
      (reg ++ [(dialogId viewId sName viewName,
          ⟨FragObj.dialog fId true, resolvedCtrl ok viewId sName viewName⟩)],
       [Effect.controllerCreate (ctrlModulePath sName viewName),
        Effect.fragmentLoad (dialogId viewId sName viewName)
          (fragmentFullName sName viewName) (resolvedCtrl ok viewId sName viewName),
        Effect.addDependentCall (FragObj.dialog fId false)]
        ++ modelEffs (dialogId viewId sName viewName) m u
        ++ (if ok then
              [Effect.onBeforeShowCall (resolvedCtrl ok viewId sName viewName)
                (resolvedCtrl ok viewId sName viewName) (FragObj.dialog fId false)
                cb dat]
            else [])
        ++ [Effect.openCall (FragObj.dialog fId false)]) := by
  simp only [openDialogFull, openDialogSync, h]
  simp only [controllerCreateResolve, fragmentLoadResolve, resolvedCtrl]
  rw [setEntry_of_none h, setCtrl_append_of_none h, setEntry_append_of_none h,
    setFrag_append_of_none h, setCtrl_append_of_none h, setFrag_append_of_none h]
  cases ok <;> simp

/-- A subsequent call for a key already present: the stored fragment gets
`open()` called on it (opening it when it is a loaded dialog) and nothing
else happens. -/
lemma openDialogFull_of_some (reg : Registry) (viewId viewName sName : Str)
    (ok : Bool) (fId : Nat) (m : Option Nat) (u : Option Bool)
    (cb dat : Option Nat) (e : FragEntry)
    (h : regGet reg (dialogId viewId sName viewName) = some e) :
    openDialogFull reg viewId viewName sName ok fId m u cb dat =
      ((match e.fragment with
        | FragObj.dialog n _ =>
          setEntry reg (dialogId viewId sName viewName)
            ⟨FragObj.dialog n true, e.controller⟩
        | _ => reg),
       [Effect.openCall e.fragment]) := by
  simp only [openDialogFull, openDialogSync, h]

/-!  Lemmas about the name computation. -/

lemma fragmentsDotLit : str ".fragments." = str ".fragments" ++ str "." := by decide

/-- The name computation of lines 147–162, re-expressed with the
claim-side vocabulary. -/
lemma dialogNames_eq (sName viewName : Str) :
    dialogNames sName viewName =
      if jsIndexOf sName (str ".") > 0 then
        (lastDotSegment sName, fragmentsRule (removeLastSegment sName) ++ str ".")
      else
        (sName, fragmentsRule (removeLastSegment viewName) ++ str ".") := by
  unfold dialogNames fragmentsRule removeLastSegment lastDotSegment
  split_ifs <;> simp_all [fragmentsDotLit, List.append_assoc]

lemma dialogNames_fst (sName viewName : Str) :
    (dialogNames sName viewName).1 =
      if jsIndexOf sName (str ".") > 0 then lastDotSegment sName else sName := by
  rw [dialogNames_eq]
  split_ifs <;> rfl

lemma dialogId_eq_amendedKey (viewId sName viewName : Str) :
    dialogId viewId sName viewName = amendedKey viewId sName := by
  unfold dialogId amendedKey
  rw [dialogNames_fst]

lemma strApp_left_cancel (a b c : Str) : a ++ b = a ++ c ↔ b = c := by
  induction a with
  | nil => simp
  | cons x xs ih => simp [ih]

lemma lastIdx?_isSome {pat l : Str} (h : (idxOf? pat l).isSome = true) :
    (lastIdx? pat l).isSome = true := by
  induction l with
  | nil =>
    unfold idxOf? at h
    unfold lastIdx?
    cases hm : headMatches pat [] with
    | true => simp [hm]
    | false => rw [hm] at h; simp at h
  | cons c cs ih =>
    unfold idxOf? at h
    unfold lastIdx?
    cases hm : headMatches pat (c :: cs) with
    | true => cases htail : lastIdx? pat cs <;> simp [hm, htail]
    | false =>
      rw [hm] at h
      simp only [Bool.false_eq_true, if_false] at h
      cases hidx : idxOf? pat cs with
      | none => rw [hidx] at h; simp at h
      | some n =>
        have hsome := ih (by simp [hidx])
        cases htail : lastIdx? pat cs with
        | none => rw [htail] at hsome; simp at hsome
        | some k => simp [htail]

lemma hasOnBeforeShow_modelEffs (id : Str) (m : Option Nat) (u : Option Bool) :
    hasOnBeforeShow (modelEffs id m u) = false := by
  cases m with
  | none =>
    cases u with
    | none => rfl
    | some b => cases b <;> rfl
  | some mv =>
    cases u with
    | none => rfl
    | some b => cases b <;> rfl

lemma hasSetModel_modelEffs (id : Str) (m : Option Nat) (u : Option Bool) :
    hasSetModel (modelEffs id m u) = true ↔ m.isSome = true ∧ u = some true := by
  cases m with
  | none =>
    cases u with
    | none => simp [modelEffs, hasSetModel]
    | some b => cases b <;> simp [modelEffs, hasSetModel]
  | some mv =>
    cases u with
    | none => simp [modelEffs, hasSetModel]
    | some b => cases b <;> simp [modelEffs, hasSetModel]

/-!  The claims. -/

/-- C3: for every name `sName` containing a `'.'` at a position greater
than 0, `openDialog` loads the fragment named `P ++ "." ++ C`, where `C`
is the substring of `sName` after its last `'.'` and `P` is `sName` with
its last segment removed, with `".fragments"` appended to `P` unless `P`
already contains `"fragments"` (case-insensitively, at an index greater
than 0); for a name with no such `'.'`, `P` is instead derived from the
current view's name with its last segment removed, by the same
`"fragments"` rule (and the name is used whole). -/
theorem c3_fragment_name (sName viewName : Str) :
    (jsIndexOf sName (str ".") > 0 →
      fragmentFullName sName viewName =
        fragmentsRule (removeLastSegment sName) ++ str "." ++ lastDotSegment sName) ∧
    (¬ jsIndexOf sName (str ".") > 0 →
      fragmentFullName sName viewName =
        fragmentsRule (removeLastSegment viewName) ++ str "." ++ sName) := by
  constructor <;> intro h <;>
    simp [fragmentFullName, dialogNames_eq, h, List.append_assoc]

/-- Witness for C3 at concrete inputs: a dotted name (with and without
`"fragments"` already in the path) and an undotted one. -/
theorem c3_fragment_name_witness :
    fragmentFullName (str "x.y.Frag") (str "view.a.B") =
      fragmentsRule (removeLastSegment (str "x.y.Frag")) ++ str "." ++
        lastDotSegment (str "x.y.Frag") ∧
    fragmentFullName (str "Frag") (str "view.a.B") =
      fragmentsRule (removeLastSegment (str "view.a.B")) ++ str "." ++ str "Frag" :=
  ⟨(c3_fragment_name (str "x.y.Frag") (str "view.a.B")).1 (by decide),
   (c3_fragment_name (str "Frag") (str "view.a.B")).2 (by decide)⟩

/-- C5: `onNavBack` goes one step back in the browser history exactly when
`History.getInstance().getPreviousHash()` is not `undefined` (including
when it is the empty string), and otherwise performs a single navigation
to the route named `"appHome"` with empty parameters and `replace = true`
— a route name the manifest's route table does not declare. -/
theorem c5_onNavBack (selfId : Str) :
    (∀ h : Str, onNavBack selfId (some h) = [Effect.historyBack]) ∧
    onNavBack selfId none =
      [Effect.routerNavTo (getRouter selfId) (str "appHome") JsVal.emptyObjV
          JsVal.emptyObjV (JsVal.boolV true)] ∧
    routeDeclared (str "appHome") = false :=
  ⟨fun _ => rfl, rfl, by decide⟩

/-- C6: `getModel s` for non-empty `s` returns exactly
`this.getView().getModel(s)`, and `getModel` with the name omitted or
equal to the (falsy) empty string returns `this.getView().getModel()`. -/
theorem c6_getModel (v : ViewS) (s : Str) :
    (s ≠ [] → getModel v (some s) = v.getModelF (some s)) ∧
    getModel v none = v.getModelF none ∧
    getModel v (some []) = v.getModelF none := by
  refine ⟨fun hs => ?_, rfl, rfl⟩
  cases s with
  | nil => exact absurd rfl hs
  | cons c cs => rfl

/-- Witness for C6 at a concrete view and model name. -/
theorem c6_getModel_witness :
    getModel ⟨fun o => o.elim 0 List.length⟩ (some (str "ui")) =
      ViewS.getModelF ⟨fun o => o.elim 0 List.length⟩ (some (str "ui")) :=
  (c6_getModel ⟨fun o => o.elim 0 List.length⟩ (str "ui")).1 (by decide)

/-- C7: `navTo(t, p, i, r)` performs exactly one `Router.navTo(t, p, i, r)`
call, arguments passed through unchanged and in order, on the router
`UIComponent.getRouterFor(this)`, and nothing else. -/
theorem c7_navTo (selfId t : Str) (p i r : JsVal) :
    navTo selfId t p i r =
      [Effect.routerNavTo (RouterObj.forController selfId) t p i r] :=
  rfl

/-!  Sample inputs used by witnesses. -/

/-- A sample view id. -/
def wVid : Str := str "v"

/-- A sample view name. -/
def wVn : Str := str "view.a.B"

/-- A sample dotted fragment name. -/
def wSn : Str := str "x.y.Frag"

/-- A sample registry that already holds a loaded, closed dialog under the
key `openDialog` computes for the name `"Frag"` on view `"v"`. -/
def wRegS : Registry :=
  [(str "v-Frag", ⟨FragObj.dialog 5 false, CtrlObj.emptyObj⟩)]

/-- C1 counterexample: for `sName = ".Login"` (whose only `'.'` sits at
index 0) the code registers under `"v0-.Login"`, not under the view id
plus the last dot-segment `"Login"` as the claim's key formula states:
the claimed key is absent from the registry after a completed first
`openDialog`, and the key actually used differs from it. -/
theorem c1_counterexample :
    regGet (openDialogFull [] (str "v0") (str "view.main.Main") (str ".Login")
        true 7 none none none none).1
      (str "v0" ++ str "-" ++ lastDotSegment (str ".Login")) = none ∧
    dialogId (str "v0") (str ".Login") (str "view.main.Main") ≠
      str "v0" ++ str "-" ++ lastDotSegment (str ".Login") := by
  constructor <;> decide

/-- C1 (amended): the first `openDialog` call for a key lazily fires the
controller creation and the fragment load and registers the loaded
fragment together with the resulting controller under the key
`getView().getId() + "-" + s`, where `s` is the last dot-segment of
`sName` when `sName` contains a `'.'` at a position greater than 0 and
`sName` unchanged otherwise; every subsequent call whose name maps to the
same key creates and loads nothing and instead calls `open()` on the
fragment object already stored under that key (its trace is exactly that
one `open()` attempt). -/
theorem c1_registry_key (reg : Registry) (viewId viewName sName : Str)
    (ok : Bool) (fId : Nat) (m : Option Nat) (u : Option Bool)
    (cb dat : Option Nat) :
    (regGet reg (amendedKey viewId sName) = none →
      hasControllerCreate
          (openDialogFull reg viewId viewName sName ok fId m u cb dat).2 = true ∧
      hasFragmentLoad
          (openDialogFull reg viewId viewName sName ok fId m u cb dat).2 = true ∧
      regGet (openDialogFull reg viewId viewName sName ok fId m u cb dat).1
          (amendedKey viewId sName) =
        some ⟨FragObj.dialog fId true, resolvedCtrl ok viewId sName viewName⟩) ∧
    (∀ e, regGet reg (amendedKey viewId sName) = some e →
      (openDialogFull reg viewId viewName sName ok fId m u cb dat).2 =
        [Effect.openCall e.fragment]) := by
  have hk := dialogId_eq_amendedKey viewId sName viewName
  constructor
  · intro h
    have h' : regGet reg (dialogId viewId sName viewName) = none := by
      rw [hk]; exact h
    rw [openDialogFull_of_none reg viewId viewName sName ok fId m u cb dat h']
    refine ⟨by simp [hasControllerCreate], by simp [hasFragmentLoad], ?_⟩
    rw [← hk]
    exact regGet_append_self h' _
  · intro e h
    have h' : regGet reg (dialogId viewId sName viewName) = some e := by
      rw [hk]; exact h
    rw [openDialogFull_of_some reg viewId viewName sName ok fId m u cb dat e h']

/-- Witness for C1 (amended): a first call on an empty registry followed by
the characterization of a subsequent call on a registry that already holds
the key. -/
theorem c1_registry_key_witness :
    (regGet ([] : Registry) (amendedKey wVid wSn) = none ∧
      hasControllerCreate
          (openDialogFull [] wVid wVn wSn true 3 none none none none).2 = true ∧
      hasFragmentLoad
          (openDialogFull [] wVid wVn wSn true 3 none none none none).2 = true ∧
      regGet (openDialogFull [] wVid wVn wSn true 3 none none none none).1
          (amendedKey wVid wSn) =
        some ⟨FragObj.dialog 3 true, resolvedCtrl true wVid wSn wVn⟩) ∧
    (regGet wRegS (amendedKey wVid (str "Frag")) =
        some ⟨FragObj.dialog 5 false, CtrlObj.emptyObj⟩ ∧
      (openDialogFull wRegS wVid wVn (str "Frag") true 3 none none none none).2 =
        [Effect.openCall (FragObj.dialog 5 false)]) :=
  ⟨⟨by decide, (c1_registry_key [] wVid wVn wSn true 3 none none none none).1
      (by decide)⟩,
   ⟨by decide, (c1_registry_key wRegS wVid wVn (str "Frag") true 3 none none
      none none).2 ⟨FragObj.dialog 5 false, CtrlObj.emptyObj⟩ (by decide)⟩⟩

/-- C2: on the first creation, `openDialog` attempts to create a dedicated
controller from the module path obtained by replacing `"view"` with
`"controller"` in the fragment's view path; when the creation resolves,
the fragment is loaded with that controller and that controller's
`onBeforeShow(controller, fragment, callback, data)` runs before the
fragment is opened; when it rejects, the fragment is loaded with the
calling controller itself and `onBeforeShow` is never invoked. -/
theorem c2_controller_fallback (reg : Registry) (viewId viewName sName : Str)
    (fId : Nat) (m : Option Nat) (u : Option Bool) (cb dat : Option Nat)
    (h : regGet reg (dialogId viewId sName viewName) = none) :
    ((openDialogFull reg viewId viewName sName true fId m u cb dat).2 =
      [Effect.controllerCreate (ctrlModulePath sName viewName),
       Effect.fragmentLoad (dialogId viewId sName viewName)
         (fragmentFullName sName viewName)
         (CtrlObj.dedicated (ctrlModulePath sName viewName)),
       Effect.addDependentCall (FragObj.dialog fId false)]
      ++ modelEffs (dialogId viewId sName viewName) m u
      ++ [Effect.onBeforeShowCall (CtrlObj.dedicated (ctrlModulePath sName viewName))
            (CtrlObj.dedicated (ctrlModulePath sName viewName))
            (FragObj.dialog fId false) cb dat,
          Effect.openCall (FragObj.dialog fId false)]) ∧
    ((openDialogFull reg viewId viewName sName false fId m u cb dat).2 =
      [Effect.controllerCreate (ctrlModulePath sName viewName),
       Effect.fragmentLoad (dialogId viewId sName viewName)
         (fragmentFullName sName viewName) (CtrlObj.caller viewId),
       Effect.addDependentCall (FragObj.dialog fId false)]
      ++ modelEffs (dialogId viewId sName viewName) m u
      ++ [Effect.openCall (FragObj.dialog fId false)]) ∧
    hasOnBeforeShow
      (openDialogFull reg viewId viewName sName false fId m u cb dat).2 = false := by
  refine ⟨?_, ?_, ?_⟩
  · rw [openDialogFull_of_none reg viewId viewName sName true fId m u cb dat h]
    simp [resolvedCtrl, List.append_assoc]
  · rw [openDialogFull_of_none reg viewId viewName sName false fId m u cb dat h]
    simp [resolvedCtrl, List.append_assoc]
  · rw [openDialogFull_of_none reg viewId viewName sName false fId m u cb dat h]
    have hm := hasOnBeforeShow_modelEffs (dialogId viewId sName viewName) m u
    simp only [hasOnBeforeShow] at hm ⊢
    simp [List.any_append, resolvedCtrl, hm]

/-- Witness for C2: the full trace of a rejected controller creation at
concrete inputs, `onBeforeShow`-free. -/
theorem c2_controller_fallback_witness :
    (openDialogFull [] wVid wVn wSn false 3 none none none none).2 =
      [Effect.controllerCreate (ctrlModulePath wSn wVn),
       Effect.fragmentLoad (dialogId wVid wSn wVn) (fragmentFullName wSn wVn)
         (CtrlObj.caller wVid),
       Effect.addDependentCall (FragObj.dialog 3 false)]
      ++ modelEffs (dialogId wVid wSn wVn) none none
      ++ [Effect.openCall (FragObj.dialog 3 false)] :=
  ((c2_controller_fallback [] wVid wVn wSn 3 none none none none
      (by decide))).2.1

/-- C9: after a completed first `openDialog(n, …)` for a dotted name `n`
(first `'.'` at a position greater than 0) on a fresh registry,
`getFragment(s)` on the same view returns the stored registry entry
exactly when `s` equals the substring of `n` after its last `'.'`; in
particular `getFragment(n)` with the full dotted name returns
`undefined`. -/
theorem c9_getFragment (viewId viewName sName : Str) (ok : Bool) (fId : Nat)
    (m : Option Nat) (u : Option Bool) (cb dat : Option Nat)
    (hdot : jsIndexOf sName (str ".") > 0) :
    (∀ s : Str,
      (getFragment (openDialogFull [] viewId viewName sName ok fId m u cb dat).1
          viewId s).isSome = true ↔ s = lastDotSegment sName) ∧
    getFragment (openDialogFull [] viewId viewName sName ok fId m u cb dat).1
        viewId sName = none := by
  have h0 : regGet [] (dialogId viewId sName viewName) = none := rfl
  rw [openDialogFull_of_none [] viewId viewName sName ok fId m u cb dat h0]
  have hbase : (dialogNames sName viewName).1 = lastDotSegment sName := by
    rw [dialogNames_fst]; exact if_pos hdot
  have hkey : ∀ s : Str,
      dialogId viewId sName viewName = viewId ++ str "-" ++ s ↔
        lastDotSegment sName = s := by
    intro s
    unfold dialogId
    rw [hbase, strApp_left_cancel]
  have hne : sName ≠ [] := by
    intro hnil
    rw [hnil] at hdot
    exact absurd hdot (by decide)
  have hsome : (lastIdx? (str ".") sName).isSome = true := by
    apply lastIdx?_isSome
    unfold jsIndexOf at hdot
    cases hi : idxOf? (str ".") sName with
    | none => rw [hi] at hdot; exact absurd hdot (by decide)
    | some n => simp [hi]
  obtain ⟨mm, hm⟩ := Option.isSome_iff_exists.mp hsome
  have hj : jsLastIndexOf sName (str ".") = (mm : Int) := by
    simp [jsLastIndexOf, hm]
  have hk1 : (jsLastIndexOf sName (str ".") + 1).toNat = mm + 1 := by
    rw [hj]
    omega
  have hlen : (lastDotSegment sName).length < sName.length := by
    unfold lastDotSegment jsSubstr
    rw [hk1, List.length_drop]
    exact Nat.sub_lt (List.length_pos.mpr hne) (Nat.succ_pos mm)
  have hnes : lastDotSegment sName ≠ sName := by
    intro heq
    rw [heq] at hlen
    exact lt_irrefl _ hlen
  constructor
  · intro s
    simp only [getFragment, List.nil_append, regGet]
    split_ifs with hk
    · exact iff_of_true (by simp) ((hkey s).mp hk).symm
    · exact iff_of_false (by simp) fun heq => hk ((hkey s).mpr heq.symm)
  · simp only [getFragment, List.nil_append, regGet]
    rw [if_neg fun hk => hnes ((hkey sName).mp hk)]

/-- Witness for C9 at the dotted name `"a.b.C"`: the entry is reachable
under `"C"` and unreachable under the full dotted name. -/
theorem c9_getFragment_witness :
    (getFragment (openDialogFull [] (str "v") (str "view.a.B") (str "a.b.C")
          false 2 none none none none).1 (str "v") (str "C")).isSome = true ∧
    getFragment (openDialogFull [] (str "v") (str "view.a.B") (str "a.b.C")
          false 2 none none none none).1 (str "v") (str "a.b.C") = none :=
  ⟨((c9_getFragment (str "v") (str "view.a.B") (str "a.b.C") false 2 none none
        none none (by decide)).1 (str "C")).mpr (by decide),
   (c9_getFragment (str "v") (str "view.a.B") (str "a.b.C") false 2 none none
        none none (by decide)).2⟩

/-- C10: the created fragment's model is set only when a model is provided
and `updateModelAlways` is truthy — with a model but a false or omitted
flag nothing is set, not even on the first creation; and a subsequent call
(which only re-opens) never sets a model. -/
theorem c10_setModel (reg : Registry) (viewId viewName sName : Str) (ok : Bool)
    (fId : Nat) (m : Option Nat) (u : Option Bool) (cb dat : Option Nat) :
    (regGet reg (dialogId viewId sName viewName) = none →
      (hasSetModel (openDialogFull reg viewId viewName sName ok fId m u cb dat).2 =
          true ↔ m.isSome = true ∧ u = some true)) ∧
    (∀ e, regGet reg (dialogId viewId sName viewName) = some e →
      hasSetModel (openDialogFull reg viewId viewName sName ok fId m u cb dat).2 =
        false) := by
  constructor
  · intro h
    rw [openDialogFull_of_none reg viewId viewName sName ok fId m u cb dat h]
    have hm := hasSetModel_modelEffs (dialogId viewId sName viewName) m u
    simp only [hasSetModel] at hm ⊢
    simp only [List.any_append]
    cases ok <;> simp [hm]
  · intro e h
    rw [openDialogFull_of_some reg viewId viewName sName ok fId m u cb dat e h]
    rfl

/-- Witness for C10: with a model and `updateModelAlways = true` the first
creation sets the model; on a registry that already holds the key the call
sets none. -/
theorem c10_setModel_witness :
    (hasSetModel (openDialogFull [] wVid wVn wSn true 3 (some 4) (some true)
          none none).2 = true ↔
      (some 4 : Option Nat).isSome = true ∧
        (some true : Option Bool) = some true) ∧
    hasSetModel (openDialogFull wRegS wVid wVn (str "Frag") true 3 (some 4)
        (some true) none none).2 = false :=
  ⟨(c10_setModel [] wVid wVn wSn true 3 (some 4) (some true) none none).1
      (by decide),
   (c10_setModel wRegS wVid wVn (str "Frag") true 3 (some 4) (some true) none
      none).2 ⟨FragObj.dialog 5 false, CtrlObj.emptyObj⟩ (by decide)⟩

/-- C4: on every registry — whichever controller instances registered its
entries — `closeFragments` terminates without a `TypeError` (the result is
`some …` even on `{}` placeholders and on the `undefined` left while a
load is in flight), calls `close()` exactly on the entries whose fragment
exposes an `isOpen` method returning `true` (closing them), and leaves
every other entry unchanged. -/
theorem c4_closeFragments (reg : Registry) :
    closeFragmentsAux reg =
      some (reg.map (fun p => (p.1,
              if closeGuard p.2.fragment then
                FragEntry.mk (closeFrag p.2.fragment) p.2.controller
              else p.2)),
            (reg.filter (fun p => closeGuard p.2.fragment)).map
              (fun p => Effect.closeCall p.1)) := by
  induction reg with
  | nil => rfl
  | cons q r ih =>
    obtain ⟨k, e⟩ := q
    obtain ⟨f, c⟩ := e
    cases f with
    | emptyObj =>
      simp [closeFragmentsAux, evalEntryGuard, truthyFrag, lookupIsOpen, ih,
        closeGuard, List.filter_cons]
    | undef =>
      simp [closeFragmentsAux, evalEntryGuard, truthyFrag, lookupIsOpen, ih,
        closeGuard, List.filter_cons]
    | dialog n b =>
      cases b <;>
        simp [closeFragmentsAux, evalEntryGuard, truthyFrag, lookupIsOpen, ih,
          closeGuard, closeFrag, List.filter_cons]

/-- C8: the history array captured by `addHistoryEntry` keeps its intents
pairwise distinct; the call first empties the array when `bReset` is true,
then — only when no stored entry carries the incoming intent — appends the
entry and pushes the full array to the `ShellUIService` hierarchy, and on
a duplicate intent leaves the array as it stands and calls no service. -/
theorem c8_addHistoryEntry (hist : List HEntry) (oEntry : HEntry)
    (bReset : Bool) :
    ((hist.map HEntry.intent).Nodup →
      (((addHistoryEntry hist oEntry bReset).1.map HEntry.intent)).Nodup) ∧
    ((if bReset then [] else hist).any
        (fun x => decide (x.intent = oEntry.intent)) = true →
      addHistoryEntry hist oEntry bReset = (if bReset then [] else hist, [])) ∧
    ((if bReset then [] else hist).any
        (fun x => decide (x.intent = oEntry.intent)) = false →
      addHistoryEntry hist oEntry bReset =
        ((if bReset then [] else hist) ++ [oEntry],
         [Effect.setHierarchy ((if bReset then [] else hist) ++ [oEntry])])) := by
  have hop1 : (if bReset then [] else hist).any
      (fun x => decide (x.intent = oEntry.intent)) = true →
      addHistoryEntry hist oEntry bReset = (if bReset then [] else hist, []) := by
    intro hb
    simp only [addHistoryEntry]
    rw [if_pos hb]
  have hop2 : (if bReset then [] else hist).any
      (fun x => decide (x.intent = oEntry.intent)) = false →
      addHistoryEntry hist oEntry bReset =
        ((if bReset then [] else hist) ++ [oEntry],
         [Effect.setHierarchy ((if bReset then [] else hist) ++ [oEntry])]) := by
    intro hb
    simp only [addHistoryEntry]
    rw [if_neg (by simp [hb])]
  refine ⟨?_, hop1, hop2⟩
  intro hnd
  have hnd1 : ((if bReset then [] else hist).map HEntry.intent).Nodup := by
    cases bReset with
    | true => simp
    | false => simpa using hnd
  cases hb : (if bReset then [] else hist).any
      (fun x => decide (x.intent = oEntry.intent)) with
  | true =>
    rw [hop1 hb]
    exact hnd1
  | false =>
    rw [hop2 hb]
    have hnotin : oEntry.intent ∉ (if bReset then [] else hist).map HEntry.intent := by
      intro hmem
      obtain ⟨x, hx, hxeq⟩ := List.mem_map.mp hmem
      have hany : (if bReset then [] else hist).any
          (fun y => decide (y.intent = oEntry.intent)) = true :=
        List.any_eq_true.mpr ⟨x, hx, by simp [hxeq]⟩
      rw [hb] at hany
      cases hany
    simp only [List.map_append, List.map_cons, List.map_nil]
    exact List.Nodup.append hnd1 (List.nodup_singleton _)
      (by simpa [List.disjoint_singleton] using hnotin)

/-- Witness for C8: appending a fresh intent to a one-entry history pushes
the two-entry hierarchy and keeps the intents distinct. -/
theorem c8_addHistoryEntry_witness :
    addHistoryEntry [⟨str "a", 0⟩] ⟨str "b", 1⟩ false =
      ([⟨str "a", 0⟩, ⟨str "b", 1⟩],
       [Effect.setHierarchy [⟨str "a", 0⟩, ⟨str "b", 1⟩]]) ∧
    (((addHistoryEntry [⟨str "a", 0⟩] ⟨str "b", 1⟩ false).1.map
        HEntry.intent)).Nodup :=
  ⟨(c8_addHistoryEntry [⟨str "a", 0⟩] ⟨str "b", 1⟩ false).2.2 (by decide),
   (c8_addHistoryEntry [⟨str "a", 0⟩] ⟨str "b", 1⟩ false).1 (by decide)⟩

end ZContract
